import Mathlib

/-!
Shallow embedding of `lingvo/core/tpu_embedding_layers_v2.py`.

The embedding models the `_TPUEmbeddingManager` singleton (its `enabled`
gate, the write-once `tpu_embedding` coordinator reference, the cached
activations, and the Enqueue/Dequeue/Lookup/ApplyGradients operations) and
the relevant parts of `TPUEmbeddingLayer` (`_CreateLayerVariables`,
`_CheckIdsMap`, `EmbLookup`).

Modelling conventions:
* tensors are flat lists of rationals (`Tensor`);
* `py_utils.NestedMap` objects are association lists from feature-name
  strings to tensors (`NMap`);
* the external TPUEmbedding coordinator object is opaque and identified by
  a `Nat`; interactions with it (and with the gradient tape and the
  gradient-multiplier schedule) are recorded in an `Event` trace returned
  next to each operation's result;
* a Python exception is an `Except.error`; where the raise happens after
  the manager was already mutated, the error value carries the mutated
  manager state;
* `tf.sqrt(py_utils.SumSquared xs)` is represented symbolically by the
  `MetricVal.sqrtv` constructor applied to the (rational) sum of squares,
  and a plain scalar metric by `MetricVal.scalar`.
-/

/-- An activation / gradient tensor, modelled as a flat list of rationals. -/
abbrev Tensor := List Rat

/-- A `py_utils.NestedMap`: finite mapping from feature-name keys to tensors. -/
abbrev NMap := List (String × Tensor)

/-- The keys of a `NestedMap` (`m.Keys()`). -/
def keys (m : NMap) : List String := m.map Prod.fst

/-- `NestedMap.GetSlice(ks)`: the submap of `m` restricted to the keys `ks`. -/
def GetSlice (m : NMap) (ks : List String) : NMap :=
  m.filter (fun kv => ks.contains kv.1)

/-- Python set intersection of two key sets, as used in
`{*ids.Keys()} & {*self._activations.Keys()}`. -/
def interKeys (a b : List String) : List String :=
  a.filter (fun k => b.contains k)

/-- The leaf tensors of a `NestedMap` (`m.Flatten()`). -/
def flattenVals (m : NMap) : List Tensor := m.map Prod.snd

/-- `py_utils.SumSquared` over a list of tensors: the sum of the squares of
all of their elements. -/
def sumSquared (ts : List Tensor) : Rat :=
  (ts.map (fun t => (t.map (fun x => x * x)).sum)).sum

/-- `NestedMap.Transform(f)` applied tensor-wise. -/
def transformMap (m : NMap) (f : Tensor → Tensor) : NMap :=
  m.map (fun kv => (kv.1, f kv.2))

/-- `dict.update` / `NestedMap.Update`: entries of `b` replace entries of `a`
with the same key and are appended otherwise. -/
def updateMap (a b : NMap) : NMap :=
  a.filter (fun kv => !(keys b).contains kv.1) ++ b

/-- The value stored in one entry of the metrics dictionary returned by
`ApplyGradients`: either `tf.sqrt` of a sum of squares (an L2 norm), kept
symbolic, or a plain scalar. -/
inductive MetricVal
  | sqrtv (sumSq : Rat)
  | scalar (v : Rat)
deriving DecidableEq, Repr

/-- The metrics dictionary returned by `ApplyGradients`:
(name, value, weight) entries. -/
abbrev Metrics := List (String × MetricVal × Rat)

/-- One observable interaction of the manager with its environment: a call
of a coordinator method (`enqueue` / `dequeue` / `apply_gradients`), the
gradient-tape `watch` registration, or an evaluation of the
gradient-multiplier schedule (`schedule.Value()`). -/
inductive Event
  | enqueueCall (batch : NMap)
  | dequeueCall
  | applyGradientsCall (grads : NMap)
  | watch (acts : NMap)
  | scheduleValue (v : Rat)
deriving DecidableEq, Repr

/-- Whether an event is an invocation of a coordinator method. -/
def Event.isCoordinatorCall : Event → Bool
  | .enqueueCall _ => true
  | .dequeueCall => true
  | .applyGradientsCall _ => true
  | _ => false

/-- The state of the `_TPUEmbeddingManager` singleton. The coordinator
(`tpu_embedding_v2.TPUEmbedding`) is opaque, identified by a `Nat`; the
gradient-multiplier schedule is modelled by its current `Value()`. -/
structure Manager where
  enabled : Bool
  tpu_embedding : Option Nat
  feature_names : List String
  sequence_features : List String
  gradient_multiplier_schedule : Option Rat
  summary_tensors : List (String × Rat × Rat)
  activations : NMap
deriving DecidableEq, Repr

/-- `_TPUEmbeddingManager.__init__`: disabled, no coordinator, empty
feature sets, no schedule, no summaries, empty activation cache. -/
def initManager : Manager :=
  { enabled := false
    tpu_embedding := none
    feature_names := []
    sequence_features := []
    gradient_multiplier_schedule := none
    summary_tensors := []
    activations := [] }

/-- `_TPUEmbeddingManager.__bool__`: passes through `enabled`. -/
def mgrBool (st : Manager) : Bool := st.enabled

/-- The `tpu_embedding` property setter: raises (returns `none`) when a
coordinator reference was already set, otherwise stores the reference. -/
def set_tpu_embedding (st : Manager) (c : Nat) : Option Manager :=
  match st.tpu_embedding with
  | some _ => none
  | none => some { st with tpu_embedding := some c }

/-- `AddSummaryTensor(name, value, weight)`: appends one summary triple. -/
def AddSummaryTensor (st : Manager) (name : String) (value : Rat)
    (weight : Rat) : Manager :=
  { st with summary_tensors := st.summary_tensors ++ [(name, value, weight)] }

/-- `Enqueue(batch)`: always resets the activation cache first; when
enabled, forwards the batch to the coordinator's `enqueue`. When enabled
with no coordinator set, Python raises an `AttributeError` after the cache
was already cleared, so the error carries the cleared state. -/
def Enqueue (st : Manager) (batch : NMap) :
    Except (String × Manager) (Manager × List Event) :=
  let st1 := { st with activations := [] }
  if st1.enabled then
    match st1.tpu_embedding with
    | some _ => .ok (st1, [Event.enqueueCall batch])
    | none => .error ("AttributeError", st1)
  else
    .ok (st1, [])

/-- `Dequeue()`: when enabled, calls the coordinator's `dequeue` (its
result is the `coordResult` parameter of the model), caches it, registers
it with the current gradient tape, and returns it; when disabled, returns
the current cache untouched. -/
def Dequeue (st : Manager) (coordResult : NMap) :
    Except (String × Manager) (Manager × NMap × List Event) :=
  if st.enabled then
    match st.tpu_embedding with
    | some _ =>
      let st1 := { st with activations := coordResult }
      .ok (st1, st1.activations, [Event.dequeueCall, Event.watch coordResult])
    | none => .error ("AttributeError", st)
  else
    .ok (st, st.activations, [])

/-- `Lookup(ids)`: when `ids` is truthy (present and non-empty) and the
manager is enabled, returns the slice of the cached activations at the
intersection of the requested keys with the cached keys; otherwise returns
the full cache. -/
def Lookup (st : Manager) (ids : Option NMap) : NMap :=
  match ids with
  | some m =>
    if !m.isEmpty && st.enabled then
      GetSlice st.activations (interKeys (keys m) (keys st.activations))
    else
      st.activations
  | none => st.activations

/-- `ApplyGradients(gradients)`: when disabled, returns an empty metrics
dictionary with no coordinator interaction and no schedule evaluation.
When enabled, evaluates the multiplier schedule, scales every gradient
tensor by the multiplier, forwards the scaled gradients to the
coordinator's `apply_gradients`, and returns the three-entry metrics
dictionary. Missing schedule / coordinator surface as the Python
`AttributeError` would. -/
def ApplyGradients (st : Manager) (gradients : NMap) :
    Except (String × Manager) (Metrics × List Event) :=
  if !st.enabled then
    .ok ([], [])
  else
    match st.gradient_multiplier_schedule with
    | none => .error ("AttributeError", st)
    | some multiplier =>
      let scaled_grads :=
        transformMap gradients (fun g => g.map (fun x => x * multiplier))
      match st.tpu_embedding with
      | none => .error ("AttributeError", st)
      | some _ =>
        .ok
          ( [ ("tpu_embedding_activation_norm",
                MetricVal.sqrtv (sumSquared (flattenVals (Lookup st none))),
                1),
              ("tpu_embedding_grad_norm",
                MetricVal.sqrtv (sumSquared (flattenVals scaled_grads)), 1),
              ("tpu_embedding_gradient_multiplier",
                MetricVal.scalar multiplier, 1) ],
            [Event.scheduleValue multiplier,
             Event.applyGradientsCall scaled_grads] )

/-- The manager state after `Enqueue`, whether the call returned normally
or raised (the raise happens after the cache reset). -/
def stateAfterEnqueue (st : Manager) (batch : NMap) : Manager :=
  match Enqueue st batch with
  | .ok (st1, _) => st1
  | .error (_, st1) => st1

/-- A `TPUEmbeddingTable` configuration, reduced to the fields consulted by
`_CreateLayerVariables` and `_CheckIdsMap`. -/
structure Table where
  input_keys : List String
  max_sequence_length : Nat
deriving DecidableEq, Repr

/-- A `TPUEmbeddingLayer` configuration: its list of tables. -/
structure Layer where
  tables : List Table
deriving DecidableEq, Repr

/-- All feature keys declared by the layer's tables, with multiplicity
(the concatenation that `collections.Counter` counts over). -/
def allKeys (layer : Layer) : List String :=
  layer.tables.foldl (fun acc t => acc ++ t.input_keys) []

/-- The feature keys of tables with `max_sequence_length > 0`, in the
order the construction loop appends them. -/
def seqFeatures (layer : Layer) : List String :=
  (layer.tables.filter (fun t => 0 < t.max_sequence_length)).foldl
    (fun acc t => acc ++ t.input_keys) []

/-- Whether some key occurs more than once
(`any(v > 1 for v in counter.values())`). -/
def hasDup (l : List String) : Bool := l.any (fun k => 1 < l.count k)

/-- `TPUEmbeddingLayer._CreateLayerVariables` acting on the manager
singleton. Returns the updated manager, or an error paired with the
manager state at the point of the raise. `newCoord` identifies the
`TPUEmbedding` coordinator object the layer would construct; `sched` is
the layer's gradient-multiplier schedule. Mirrors the source order: the
TPU-training guard, the enablement guard, enabling, constructing and
storing the coordinator, storing schedule and sequence features, and only
then the duplicate-feature-key check. -/
def CreateLayerVariables (st : Manager) (layer : Layer) (newCoord : Nat)
    (sched : Rat) (isTpuTraining : Bool) : Except (String × Manager) Manager :=
  if !isTpuTraining then
    .ok st
  else if mgrBool st then
    .ok st
  else
    let st1 := { st with enabled := true }
    match set_tpu_embedding st1 newCoord with
    | none => .error ("TPUEmbedding has already been set.", st1)
    | some st2 =>
      let st3 := { st2 with
        gradient_multiplier_schedule := some sched
        sequence_features := (seqFeatures layer).dedup }
      if hasDup (allKeys layer) then
        .error ("Key used by multiple tables", st3)
      else
        .ok { st3 with feature_names := (allKeys layer).dedup }

/-- The set of valid lookup keys of a layer: every `input_key` of every
table (`_CheckIdsMap`'s `valid_keys`). -/
def validKeys (layer : Layer) : List String := (allKeys layer).dedup

/-- The invalid keys of a lookup request:
`set(ids_map.Keys()) - valid_keys`. -/
def invalidKeys (layer : Layer) (ids : NMap) : List String :=
  (keys ids).dedup.filter (fun k => !(validKeys layer).contains k)

/-- `TPUEmbeddingLayer.EmbLookup`: first `_CheckIdsMap` (raising, with the
invalid keys named in the error, when the request mentions undeclared
keys); then the TPU path delegates to the manager's `Lookup`, and the CPU
path combines per-table `CpuEmbLookup` results (the TensorFlow lookup math
is external, abstracted by the `cpuLookup` parameter). -/
def EmbLookup (layer : Layer) (mgr : Manager) (isTpuTraining : Bool)
    (cpuLookup : Table → NMap → NMap) (ids : NMap) :
    Except (String × List String) NMap :=
  if !(invalidKeys layer ids).isEmpty then
    .error ("Invalid input keys", invalidKeys layer ids)
  else if isTpuTraining then
    .ok (Lookup mgr (some ids))
  else
    .ok (layer.tables.foldl
      (fun acc t =>
        updateMap acc
          (cpuLookup t (GetSlice ids (interKeys t.input_keys (keys ids)))))
      [])

/-- The manager states reachable from the initial singleton state through
the operations of this file. Error outcomes that leave a mutated state
behind make that state reachable too, as the Python exception propagates
past the mutation. -/
inductive Reachable : Manager → Prop
  | init : Reachable initManager
  | enqueue_ok {st st' : Manager} {b : NMap} {evs : List Event} :
      Reachable st → Enqueue st b = .ok (st', evs) → Reachable st'
  | enqueue_err {st st' : Manager} {b : NMap} {msg : String} :
      Reachable st → Enqueue st b = .error (msg, st') → Reachable st'
  | dequeue_ok {st st' : Manager} {dq r : NMap} {evs : List Event} :
      Reachable st → Dequeue st dq = .ok (st', r, evs) → Reachable st'
  | set_coord {st st' : Manager} {c : Nat} :
      Reachable st → set_tpu_embedding st c = some st' → Reachable st'
  | set_feature_names {st : Manager} {fs : List String} :
      Reachable st → Reachable { st with feature_names := fs }
  | set_seq_features {st : Manager} {fs : List String} :
      Reachable st → Reachable { st with sequence_features := fs }
  | set_schedule {st : Manager} {s : Option Rat} :
      Reachable st → Reachable { st with gradient_multiplier_schedule := s }
  | add_summary {st : Manager} {n : String} {v w : Rat} :
      Reachable st → Reachable (AddSummaryTensor st n v w)
  | clv_ok {st st' : Manager} {layer : Layer} {c : Nat} {s : Rat} {tpu : Bool} :
      Reachable st → CreateLayerVariables st layer c s tpu = .ok st' →
      Reachable st'
  | clv_err {st st' : Manager} {layer : Layer} {c : Nat} {s : Rat} {tpu : Bool}
      {msg : String} :
      Reachable st → CreateLayerVariables st layer c s tpu = .error (msg, st') →
      Reachable st'

/-! Helper lemmas about the operations. -/

lemma enqueue_ok_state {st st' : Manager} {b : NMap} {evs : List Event}
    (h : Enqueue st b = .ok (st', evs)) :
    st' = { st with activations := [] } := by
  cases he : st.enabled <;> cases hc : st.tpu_embedding <;>
    simp [Enqueue, he, hc] at h <;> exact h.1.symm

lemma enqueue_err_state {st st' : Manager} {b : NMap} {msg : String}
    (h : Enqueue st b = .error (msg, st')) :
    st' = { st with activations := [] } := by
  cases he : st.enabled <;> cases hc : st.tpu_embedding <;>
    simp [Enqueue, he, hc] at h
  exact h.2.symm

lemma dequeue_ok_state {st st' : Manager} {dq r : NMap} {evs : List Event}
    (h : Dequeue st dq = .ok (st', r, evs)) :
    st' = st ∨ (st.enabled = true ∧ st' = { st with activations := dq }) := by
  cases he : st.enabled <;> cases hc : st.tpu_embedding <;>
    simp [Dequeue, he, hc] at h
  · exact Or.inl h.1.symm
  · exact Or.inl h.1.symm
  · refine Or.inr ⟨rfl, ?_⟩
    rw [← h.1]

lemma set_coord_state {st st' : Manager} {c : Nat}
    (h : set_tpu_embedding st c = some st') :
    st' = { st with tpu_embedding := some c } := by
  cases hc : st.tpu_embedding <;> simp [set_tpu_embedding, hc] at h
  exact h.symm

lemma clv_ok_state {st st' : Manager} {layer : Layer} {c : Nat} {s : Rat}
    {tpu : Bool} (h : CreateLayerVariables st layer c s tpu = .ok st') :
    st' = st ∨ st'.enabled = true := by
  cases htpu : tpu
  · simp [CreateLayerVariables, htpu] at h
    exact Or.inl h.symm
  · cases hmb : mgrBool st
    · cases hc : st.tpu_embedding <;>
        cases hd : hasDup (allKeys layer) <;>
        simp [CreateLayerVariables, htpu, hmb, set_tpu_embedding, hc, hd] at h
      all_goals (right; rw [← h])
    · simp [CreateLayerVariables, htpu, hmb] at h
      exact Or.inl h.symm

lemma clv_err_state {st st' : Manager} {layer : Layer} {c : Nat} {s : Rat}
    {tpu : Bool} {msg : String}
    (h : CreateLayerVariables st layer c s tpu = .error (msg, st')) :
    st'.enabled = true := by
  cases htpu : tpu
  · simp [CreateLayerVariables, htpu] at h
  · cases hmb : mgrBool st
    · cases hc : st.tpu_embedding <;>
        cases hd : hasDup (allKeys layer) <;>
        simp [CreateLayerVariables, htpu, hmb, set_tpu_embedding, hc, hd] at h
      all_goals (rw [← h.2])
    · simp [CreateLayerVariables, htpu, hmb] at h

/-- In every reachable state, a disabled manager has an empty activation
cache: the cache is only populated by an enabled `Dequeue`, and `enabled`
is never reset once set. -/
lemma reachable_disabled_empty {st : Manager} (h : Reachable st) :
    st.enabled = false → st.activations = [] := by
  induction h with
  | init => intro _; rfl
  | enqueue_ok _ he _ => intro _; rw [enqueue_ok_state he]
  | enqueue_err _ he _ => intro _; rw [enqueue_err_state he]
  | dequeue_ok _ he ih =>
    intro hd
    rcases dequeue_ok_state he with h1 | ⟨h2, h3⟩
    · subst h1; exact ih hd
    · subst h3; simp at hd; simp [hd] at h2
  | set_coord _ he ih =>
    intro hd
    rw [set_coord_state he] at hd ⊢
    simp at hd ⊢
    exact ih hd
  | set_feature_names _ ih => intro hd; simp at hd ⊢; exact ih hd
  | set_seq_features _ ih => intro hd; simp at hd ⊢; exact ih hd
  | set_schedule _ ih => intro hd; simp at hd ⊢; exact ih hd
  | add_summary _ ih =>
    intro hd
    simp [AddSummaryTensor] at hd ⊢
    exact ih hd
  | clv_ok _ he ih =>
    intro hd
    rcases clv_ok_state he with h1 | h1
    · subst h1; exact ih hd
    · rw [h1] at hd; cases hd
  | clv_err _ he ih =>
    intro hd
    rw [clv_err_state he] at hd
    cases hd

lemma stateAfterEnqueue_eq (st : Manager) (b : NMap) :
    stateAfterEnqueue st b = { st with activations := [] } := by
  unfold stateAfterEnqueue
  cases h : Enqueue st b with
  | ok v =>
    cases v with
    | mk st1 evs => exact enqueue_ok_state h
  | error e =>
    cases e with
    | mk msg st1 => exact enqueue_err_state h

lemma GetSlice_interKeys (m : NMap) (a : List String) :
    GetSlice m (interKeys a (keys m)) = m.filter (fun kv => a.contains kv.1) := by
  unfold GetSlice interKeys
  apply List.filter_congr
  intro kv hkv
  have hk : kv.1 ∈ keys m := List.mem_map_of_mem Prod.fst hkv
  simp [hk]

/-! Theorems settling the claims. -/

/-- C1: for every manager state with `enabled = false`, `Enqueue` performs
no coordinator call (and no interaction at all, only the cache reset),
`Dequeue` performs no coordinator call and returns the cached activations
unchanged, and `ApplyGradients` returns an empty metrics mapping with no
coordinator call and no evaluation of the multiplier schedule (its trace
carries no `scheduleValue` event, and it succeeds even when no schedule is
set); moreover in every reachable disabled state the returned cache is
empty. -/
theorem C1_disabled_all_noops (st : Manager) (batch dq grads : NMap)
    (h : st.enabled = false) :
    Enqueue st batch = .ok ({ st with activations := [] }, []) ∧
    Dequeue st dq = .ok (st, st.activations, []) ∧
    ApplyGradients st grads = .ok ([], []) ∧
    (Reachable st → st.activations = []) := by
  refine ⟨?_, ?_, ?_, fun hr => reachable_disabled_empty hr h⟩
  all_goals simp [Enqueue, Dequeue, ApplyGradients, h]

/-- Witness for C1 at the initial manager state (which is disabled, has no
multiplier schedule set, and is reachable). -/
theorem C1_disabled_all_noops_witness :
    initManager.enabled = false ∧
    (Enqueue initManager [("a", [1])] =
      .ok ({ initManager with activations := [] }, []) ∧
    Dequeue initManager [("a", [1])] =
      .ok (initManager, initManager.activations, []) ∧
    ApplyGradients initManager [("a", [1])] = .ok ([], []) ∧
    (Reachable initManager → initManager.activations = [])) :=
  ⟨rfl, C1_disabled_all_noops initManager [("a", [1])] [("a", [1])]
    [("a", [1])] rfl⟩

/-- C4: the coordinator reference is settable exactly once: with no
coordinator stored, the setter stores the given reference; once any
reference is stored, every further setter call fails. -/
theorem C4_coordinator_set_once (st : Manager) (c c2 : Nat)
    (h : st.tpu_embedding = none) :
    set_tpu_embedding st c = some { st with tpu_embedding := some c } ∧
    set_tpu_embedding { st with tpu_embedding := some c } c2 = none ∧
    (∀ st0 c0 c1, st0.tpu_embedding = some c0 →
      set_tpu_embedding st0 c1 = none) := by
  refine ⟨?_, ?_, fun st0 c0 c1 h0 => ?_⟩
  · simp [set_tpu_embedding, h]
  · simp [set_tpu_embedding]
  · simp [set_tpu_embedding, h0]

/-- Witness for C4 at the initial manager, setting coordinator 1 and then
attempting coordinator 2. -/
theorem C4_coordinator_set_once_witness :
    set_tpu_embedding initManager 1 =
      some { initManager with tpu_embedding := some 1 } ∧
    set_tpu_embedding { initManager with tpu_embedding := some 1 } 2 =
      none :=
  ⟨(C4_coordinator_set_once initManager 1 2 rfl).1,
   (C4_coordinator_set_once initManager 1 2 rfl).2.1⟩

/-- C5: after `Enqueue` (in any manager state, enabled or disabled, and
whether or not the enabled call then failed for lack of a coordinator) the
activation cache is empty, and any `Lookup` on the post-`Enqueue` state
returns an empty result. -/
theorem C5_enqueue_clears_cache (st : Manager) (batch : NMap)
    (ids : Option NMap) :
    (stateAfterEnqueue st batch).activations = [] ∧
    Lookup (stateAfterEnqueue st batch) ids = [] := by
  rw [stateAfterEnqueue_eq]
  refine ⟨rfl, ?_⟩
  cases ids with
  | none => rfl
  | some m =>
    unfold Lookup
    split <;> simp [GetSlice]

/-- A concrete enabled manager used by the witnesses: coordinator set,
multiplier schedule value 3/2, cached activations for feature "a". -/
def mgrEnabled : Manager :=
  { enabled := true
    tpu_embedding := some 7
    feature_names := ["a", "b"]
    sequence_features := []
    gradient_multiplier_schedule := some (3 / 2)
    summary_tensors := []
    activations := [("a", [1, 2])] }

/-- C2: for an enabled manager and a non-empty request, `Lookup` returns
exactly the entries of the cached activations whose keys are among the
requested keys (the intersection of requested and cached keys); requested
keys absent from the cache are silently dropped, and `Lookup` is total
(it never raises on missing keys). -/
theorem C2_lookup_intersection (st : Manager) (ids : NMap)
    (he : st.enabled = true) (hne : ids ≠ []) :
    Lookup st (some ids) =
      st.activations.filter (fun kv => (keys ids).contains kv.1) ∧
    ∀ kv, kv ∈ Lookup st (some ids) ↔
      kv ∈ st.activations ∧ kv.1 ∈ keys ids := by
  have hie : ids.isEmpty = false := by
    cases ids with
    | nil => exact absurd rfl hne
    | cons a l => rfl
  have h1 : Lookup st (some ids) =
      GetSlice st.activations (interKeys (keys ids) (keys st.activations)) := by
    simp [Lookup, hie, he]
  rw [h1, GetSlice_interKeys]
  refine ⟨rfl, fun kv => ?_⟩
  simp [List.mem_filter]

/-- Witness for C2: the spec scenario — cache `{a ↦ [1, 2]}`, request for
keys `{a, b}`, result `{a ↦ [1, 2]}` with the missing key `b` omitted. -/
theorem C2_lookup_intersection_witness :
    (∀ kv, kv ∈ Lookup mgrEnabled (some [("a", []), ("b", [])]) ↔
      kv ∈ mgrEnabled.activations ∧
        kv.1 ∈ keys [("a", []), ("b", [])]) ∧
    Lookup mgrEnabled (some [("a", []), ("b", [])]) = [("a", [1, 2])] :=
  ⟨(C2_lookup_intersection mgrEnabled [("a", []), ("b", [])] rfl
      (by decide)).2,
   by rfl⟩

/-- C3: for an enabled manager with multiplier `mult`, `ApplyGradients`
scales every gradient tensor elementwise by `mult`, forwards exactly the
scaled mapping to the coordinator's `apply_gradients`, and returns the
three-entry metrics mapping: the L2 norm of the cached activations, the
L2 norm of the scaled gradients, and the multiplier itself, each with
weight 1; the `tpu_embedding_gradient_multiplier` metric is exactly
`mult`. -/
theorem C3_apply_gradients_enabled (st : Manager) (grads : NMap) (mult : Rat)
    (c : Nat) (he : st.enabled = true)
    (hm : st.gradient_multiplier_schedule = some mult)
    (hc : st.tpu_embedding = some c) :
    ApplyGradients st grads =
      .ok
        ( [("tpu_embedding_activation_norm",
            MetricVal.sqrtv (sumSquared (flattenVals st.activations)), 1),
           ("tpu_embedding_grad_norm",
            MetricVal.sqrtv (sumSquared (flattenVals
              (grads.map (fun kv => (kv.1, kv.2.map (fun g => g * mult)))))),
            1),
           ("tpu_embedding_gradient_multiplier", MetricVal.scalar mult, 1)],
          [Event.scheduleValue mult,
           Event.applyGradientsCall
             (grads.map (fun kv => (kv.1, kv.2.map (fun g => g * mult))))] ) := by
  simp [ApplyGradients, he, hm, hc, transformMap, Lookup]

/-- Witness for C3: multiplier 3/2 applied to the gradient `{a ↦ [4, 6]}`
gives `{a ↦ [6, 9]}` at the coordinator, activation norm √5, gradient
norm √117, and multiplier metric exactly 3/2. -/
theorem C3_apply_gradients_enabled_witness :
    ApplyGradients mgrEnabled [("a", [4, 6])] =
      .ok
        ( [("tpu_embedding_activation_norm", MetricVal.sqrtv 5, 1),
           ("tpu_embedding_grad_norm", MetricVal.sqrtv 117, 1),
           ("tpu_embedding_gradient_multiplier", MetricVal.scalar (3 / 2), 1)],
          [Event.scheduleValue (3 / 2),
           Event.applyGradientsCall [("a", [6, 9])]] ) := by
  have h := C3_apply_gradients_enabled mgrEnabled [("a", [4, 6])] (3 / 2) 7
    rfl rfl rfl
  rw [h]
  norm_num [mgrEnabled, sumSquared, flattenVals]

/-- C6: for an enabled manager with a coordinator, `Dequeue` invokes the
coordinator's dequeue, caches its result, registers it with the gradient
tape, and returns it; `Lookup` with no request then returns the full
freshly-dequeued mapping (with exactly its keys). For a disabled manager,
`Dequeue` returns the current cache with no coordinator interaction. -/
theorem C6_dequeue_stores_and_returns (st : Manager) (dq : NMap) (c : Nat) :
    (st.enabled = true → st.tpu_embedding = some c →
      Dequeue st dq =
        .ok ({ st with activations := dq }, dq,
          [Event.dequeueCall, Event.watch dq]) ∧
      Lookup { st with activations := dq } none = dq ∧
      keys (Lookup { st with activations := dq } none) = keys dq) ∧
    (st.enabled = false → Dequeue st dq = .ok (st, st.activations, [])) := by
  constructor
  · intro he hc
    refine ⟨?_, rfl, rfl⟩
    simp [Dequeue, he, hc]
  · intro hd
    simp [Dequeue, hd]

/-- Witness for C6 at a concrete enabled manager (and, for the disabled
branch, at the initial manager). -/
theorem C6_dequeue_stores_and_returns_witness :
    Dequeue mgrEnabled [("x", [5])] =
      .ok ({ mgrEnabled with activations := [("x", [5])] }, [("x", [5])],
        [Event.dequeueCall, Event.watch [("x", [5])]]) ∧
    Lookup { mgrEnabled with activations := [("x", [5])] } none =
      [("x", [5])] ∧
    Dequeue initManager [("x", [5])] =
      .ok (initManager, initManager.activations, []) :=
  ⟨((C6_dequeue_stores_and_returns mgrEnabled [("x", [5])] 7).1 rfl rfl).1,
   ((C6_dequeue_stores_and_returns mgrEnabled [("x", [5])] 7).1 rfl rfl).2.1,
   (C6_dequeue_stores_and_returns initManager [("x", [5])] 0).2 rfl⟩

/-- C9: the truthiness test in `Lookup` makes an empty (but present)
request mapping behave exactly like passing no request at all: the full
cached-activations mapping is returned, not the empty intersection. -/
theorem C9_lookup_empty_request_full_cache (st : Manager)
    (_he : st.enabled = true) :
    Lookup st (some []) = st.activations ∧
    Lookup st (some []) = Lookup st none :=
  ⟨rfl, rfl⟩

/-- Witness for C9 at a concrete enabled manager with a non-empty cache. -/
theorem C9_lookup_empty_request_full_cache_witness :
    Lookup mgrEnabled (some []) = mgrEnabled.activations ∧
    Lookup mgrEnabled (some []) = Lookup mgrEnabled none :=
  C9_lookup_empty_request_full_cache mgrEnabled rfl

/-- C10: the manager's boolean value is its `enabled` flag, and layer
variable construction on an already-enabled manager returns the manager
completely unchanged — no coordinator re-construction, no double-set
error, no change to feature names, sequence features, or the
gradient-multiplier schedule. -/
theorem C10_manager_bool_and_second_layer_noop (st : Manager) (layer : Layer)
    (c : Nat) (sched : Rat) (tpu : Bool) :
    mgrBool st = st.enabled ∧
    (st.enabled = true →
      CreateLayerVariables st layer c sched tpu = .ok st) := by
  refine ⟨rfl, fun he => ?_⟩
  cases tpu
  · rfl
  · simp [CreateLayerVariables, mgrBool, he]

/-- Witness for C10: a second layer's variable construction on the
already-enabled concrete manager leaves it untouched. -/
theorem C10_manager_bool_and_second_layer_noop_witness :
    mgrBool mgrEnabled = mgrEnabled.enabled ∧
    CreateLayerVariables mgrEnabled ⟨[⟨["a"], 0⟩]⟩ 9 2 true =
      .ok mgrEnabled :=
  ⟨(C10_manager_bool_and_second_layer_noop mgrEnabled ⟨[⟨["a"], 0⟩]⟩ 9 2
      true).1,
   (C10_manager_bool_and_second_layer_noop mgrEnabled ⟨[⟨["a"], 0⟩]⟩ 9 2
      true).2 rfl⟩

/-- A layer declaring the feature key "f" in two distinct tables. -/
def dupLayer : Layer := ⟨[⟨["f"], 0⟩, ⟨["f"], 0⟩]⟩

/-- C7 counterexample: with the duplicate key "f" declared by two tables,
layer variable construction on the fresh manager does raise the
configuration error, but the manager state at the raise already holds the
freshly constructed coordinator (reference 5): the error is NOT raised
before the coordinator object is built, contrary to the claim. -/
theorem C7_counterexample :
    CreateLayerVariables initManager dupLayer 5 1 true =
      .error ("Key used by multiple tables",
        { enabled := true, tpu_embedding := some 5, feature_names := [],
          sequence_features := [], gradient_multiplier_schedule := some 1,
          summary_tensors := [], activations := [] }) ∧
    ({ enabled := true, tpu_embedding := some 5, feature_names := [],
       sequence_features := [], gradient_multiplier_schedule := some 1,
       summary_tensors := [], activations := [] } : Manager).tpu_embedding =
      some 5 :=
  ⟨rfl, rfl⟩

/-- C7 (amended): for every layer configuration in which some feature key
is declared more than once across the table configurations, layer variable
construction on a fresh (disabled, coordinator-free) manager under TPU
training raises the configuration error, and the error is raised after
the coordinator object has been constructed and stored on the manager:
every error outcome of this construction carries the new coordinator. -/
theorem C7_duplicate_key_error_after_coordinator (st : Manager)
    (layer : Layer) (c : Nat) (sched : Rat)
    (hdup : hasDup (allKeys layer) = true)
    (hen : st.enabled = false) (hco : st.tpu_embedding = none) :
    CreateLayerVariables st layer c sched true =
      .error ("Key used by multiple tables",
        { st with
            enabled := true
            tpu_embedding := some c
            gradient_multiplier_schedule := some sched
            sequence_features := (seqFeatures layer).dedup }) ∧
    ∀ msg st', CreateLayerVariables st layer c sched true =
      .error (msg, st') → st'.tpu_embedding = some c := by
  have h0 : CreateLayerVariables st layer c sched true =
      .error ("Key used by multiple tables",
        { st with
            enabled := true
            tpu_embedding := some c
            gradient_multiplier_schedule := some sched
            sequence_features := (seqFeatures layer).dedup }) := by
    simp [CreateLayerVariables, mgrBool, hen, set_tpu_embedding, hco, hdup]
  refine ⟨h0, fun msg st' h' => ?_⟩
  rw [h0] at h'
  simp at h'
  rw [← h'.2]

/-- Witness for the amended C7 at the concrete duplicate-key layer. -/
theorem C7_duplicate_key_error_after_coordinator_witness :
    hasDup (allKeys dupLayer) = true ∧
    CreateLayerVariables initManager dupLayer 8 2 true =
      .error ("Key used by multiple tables",
        { initManager with
            enabled := true
            tpu_embedding := some 8
            gradient_multiplier_schedule := some 2
            sequence_features := (seqFeatures dupLayer).dedup }) :=
  ⟨rfl, (C7_duplicate_key_error_after_coordinator initManager dupLayer 8 2
    rfl rfl rfl).1⟩

/-- A valid single-table layer declaring only the feature key "a". -/
def okLayer : Layer := ⟨[⟨["a"], 0⟩]⟩

/-- C8 counterexample: undeclared lookup keys are not detected at layer
construction time. Constructing the layer's variables on a fresh manager
succeeds without any error, even though a later lookup request for the
undeclared key "b" exists; the invalid-key error fires only when the
embedding-lookup path itself runs. -/
theorem C8_counterexample :
    CreateLayerVariables initManager okLayer 3 1 true =
      .ok { initManager with
              enabled := true
              tpu_embedding := some 3
              gradient_multiplier_schedule := some 1
              feature_names := ["a"] } ∧
    EmbLookup okLayer
      { initManager with
          enabled := true
          tpu_embedding := some 3
          gradient_multiplier_schedule := some 1
          feature_names := ["a"] }
      true (fun _ m => m) [("b", [1])] =
      .error ("Invalid input keys", ["b"]) :=
  ⟨rfl, rfl⟩

/-- C8 (amended): requests for lookup keys not declared by any table are
rejected when the embedding-lookup path runs (not at layer-construction
time): whenever the request mentions a key outside the tables' declared
input keys, `EmbLookup` raises an error naming exactly the undeclared
keys — the set difference of the requested and the declared keys —
instead of returning a result, on both the TPU and the CPU path. -/
theorem C8_invalid_keys_error_at_lookup (layer : Layer) (mgr : Manager)
    (tpu : Bool) (cpuLookup : Table → NMap → NMap) (ids : NMap)
    (h : invalidKeys layer ids ≠ []) :
    EmbLookup layer mgr tpu cpuLookup ids =
      .error ("Invalid input keys", invalidKeys layer ids) ∧
    ∀ k, k ∈ invalidKeys layer ids ↔
      k ∈ keys ids ∧ k ∉ validKeys layer := by
  have hie : (invalidKeys layer ids).isEmpty = false := by
    cases hh : invalidKeys layer ids with
    | nil => exact absurd hh h
    | cons a l => rfl
  refine ⟨?_, fun k => ?_⟩
  · simp [EmbLookup, hie]
  · simp [invalidKeys, List.mem_filter, List.mem_dedup]

/-- Witness for the amended C8: a request for the undeclared key "b"
against the single-table layer declaring only "a". -/
theorem C8_invalid_keys_error_at_lookup_witness :
    invalidKeys okLayer [("b", [1])] = ["b"] ∧
    EmbLookup okLayer initManager false (fun _ m => m) [("b", [1])] =
      .error ("Invalid input keys", invalidKeys okLayer [("b", [1])]) :=
  ⟨rfl, (C8_invalid_keys_error_at_lookup okLayer initManager false
    (fun _ m => m) [("b", [1])] (by decide)).1⟩
